import Mathlib

/-!
Verification development for the Brainbrew Streamlit application.

The Python sources are embedded shallowly:

* `src/pages/Quiz.py` — the quiz session state (`current_question_idx`,
  `score`, `attempted_questions`, `quiz_completed`), the `quiz()` body that
  handles a "Next Question" button press (lines 118-141), the completion
  check (lines 144-146), and the rendering of progress and options.
* `src/pages/QnA.py` — `generate_qna` and the message log.
* `src/pages/Notes.py`, `src/pages/QnA.py`, `src/pages/Quiz.py` module-level
  guards on `st.session_state.user_input`.
* `src/App.py` — `is_ollama_running`, `start_ollama`, and the session-state
  defaults.

Python values that may be `None` are modelled as `Option`; a Python dict of
options (which keeps insertion order and has unique keys) is modelled as an
association list `List (String × Bool)`; a Python `set` of indices is a
`Finset Nat`.  Code paths that can raise (`IndexError` on `option_items[i]`,
`KeyError` on `options[answer]`, `ZeroDivisionError` in the progress bar)
are modelled with `Option`: `none` is an uncaught exception.
-/

namespace Brainbrew

/-- One record of `quiz_output.response_content` (`src/pages/Quiz.py`,
`QuestionItem`): a question string and a dict mapping each option string
to `True` exactly when that option is correct. -/
structure QuestionItem where
  question : String
  options : List (String × Bool)
deriving DecidableEq, Repr

/-- The quiz-related slice of `st.session_state` as initialised in
`src/App.py` lines 61-68. -/
structure QuizState where
  current_question_idx : Nat
  score : Nat
  attempted_questions : Finset Nat
  quiz_completed : Bool
deriving DecidableEq

/-- Initial quiz session state (`src/App.py`): index 0, score 0, empty
attempted set, completion flag clear. -/
def initQuizState : QuizState :=
  { current_question_idx := 0
    score := 0
    attempted_questions := ∅
    quiz_completed := false }

/-- The chained conditional expression of `src/pages/Quiz.py` lines 120-130:
`option_items[0] if choice == "A" else option_items[1] if choice == "B" ...
else None`.  Indexing out of range raises `IndexError`, hence `Option`;
the final `else None` arm makes `options[None]` raise `KeyError` later,
which is also `none` here. -/
def answerOf (option_items : List String) (choice : String) : Option String :=
  if choice = "A" then option_items[0]?
  else if choice = "B" then option_items[1]?
  else if choice = "C" then option_items[2]?
  else if choice = "D" then option_items[3]?
  else none

/-- The body of `if choice:` in `src/pages/Quiz.py` lines 119-140 for a
truthy `choice`: compute `answer`, look it up in the current question's
option dict, bump the score when correct, mark the index attempted, and
advance the index.  `none` models an uncaught `IndexError`/`KeyError`. -/
def submitAnswer (questions : List QuestionItem) (choice : String)
    (s : QuizState) : Option QuizState :=
  match questions[s.current_question_idx]? with
  | none => none
  | some current_question =>
    let option_items := current_question.options.map Prod.fst
    match answerOf option_items choice with
    | none => none
    | some answer =>
      match current_question.options.lookup answer with
      | none => none
      | some correct =>
        some { s with
          score := if correct then s.score + 1 else s.score
          attempted_questions :=
            insert s.current_question_idx s.attempted_questions
          current_question_idx := s.current_question_idx + 1 }

/-- One script run of the quiz page, as far as session state goes.
`press c` is a run where the "Next Question" button returns `True` with
radio value `c` (`none` = falsy choice); `view` is a run without a button
press (for example the automatic rerun issued by `st.rerun()`). -/
inductive Event where
  | press (choice : Option String)
  | view
deriving DecidableEq, Repr

/-- The completion check of `src/pages/Quiz.py` lines 144-146: when the quiz
is not yet completed and the index has reached the question count, set
`quiz_completed`. -/
def settle (questions : List QuestionItem) (s : QuizState) : QuizState :=
  if s.quiz_completed = false ∧ questions.length ≤ s.current_question_idx then
    { s with quiz_completed := true }
  else s

/-- State effect of one script run of `quiz()` (`src/pages/Quiz.py` lines
90-146).  When the quiz is in progress and a button press carries a truthy
choice, the submission block runs and `st.rerun()` fires before the
completion check; a falsy choice skips the block and also reruns; a plain
view run falls through to the completion check, which does nothing while
`current_question_idx < total`.  Once the index has reached the total the
button block is not rendered and the completion check sets the flag.  After
completion only the end screen is drawn and the state is untouched. -/
def runStep (questions : List QuestionItem) (ev : Event) (s : QuizState) :
    Option QuizState :=
  if s.quiz_completed then some s
  else if s.current_question_idx < questions.length then
    match ev with
    | .press (some choice) => submitAnswer questions choice s
    | .press none => some s
    | .view => some (settle questions s)
  else some (settle questions s)

/-- A sequence of script runs threaded through `runStep`; an exception in
any run aborts the session. -/
def runTrace (questions : List QuestionItem) :
    List Event → QuizState → Option QuizState
  | [], s => some s
  | ev :: evs, s => (runStep questions ev s).bind (runTrace questions evs)

/-- A user-level "Next Question" submission: the run where the button is
pressed, followed by the automatic rerun (a view run) triggered by
`st.rerun()`, which performs the completion check. -/
def submitAndSettle (questions : List QuestionItem) (choice : String)
    (s : QuizState) : Option QuizState :=
  (runStep questions (Event.press (some choice)) s).bind
    (runStep questions Event.view)

/-- A whole quiz session: one user submission per recorded choice. -/
def runQuizSession (questions : List QuestionItem) :
    List String → QuizState → Option QuizState
  | [], s => some s
  | choice :: rest, s =>
    (submitAndSettle questions choice s).bind (runQuizSession questions rest)

/-- A concrete one-question quiz with four options, used to instantiate
theorems on closed inputs. -/
def sampleQuestions : List QuestionItem :=
  [⟨"q", [("x", true), ("y", false), ("z", false), ("w", false)]⟩]

/-- Invariant of the quiz session state: every attempted index lies below
the current index, the score is at most the number of attempted questions,
and the current index is at most the question count. -/
def QuizInv (questions : List QuestionItem) (s : QuizState) : Prop :=
  (∀ j ∈ s.attempted_questions, j < s.current_question_idx) ∧
  s.score ≤ s.attempted_questions.card ∧
  s.current_question_idx ≤ questions.length

/-- An entry of `st.session_state.messages` (`src/pages/QnA.py`): a dict
with a `role` and a `content` field. -/
structure Message where
  role : String
  content : String
deriving DecidableEq, Repr

/-- The body of `generate_qna` in `src/pages/QnA.py` lines 174-192: take
the generated questions minus the first (`cache_questions()[1::]`), and for
each remaining question first append a message carrying the question (the
code stores it under role "assistant"), then invoke the answer chain on the
question and append a message carrying the answer (stored under role
"user").  The answer chain is an oracle `answer_chain : String → String`;
`cached` is the list returned by `cache_questions()`. -/
def generate_qna (cached : List String) (answer_chain : String → String)
    (messages : List Message) : List Message :=
  (cached.drop 1).foldl
    (fun msgs ques =>
      (msgs ++ [⟨"assistant", ques⟩]) ++ [⟨"user", answer_chain ques⟩])
    messages

/-- Specification-side shape of the appended log entries: each question
immediately followed by its answer, in generation order. -/
def qnaPairs (answer_chain : String → String) : List String → List Message
  | [] => []
  | ques :: rest =>
    ⟨"assistant", ques⟩ :: ⟨"user", answer_chain ques⟩ ::
      qnaPairs answer_chain rest

/-- Rendering part of `quiz()` (`src/pages/Quiz.py` lines 82-115): the
progress bar divides the attempted count by `total_questions =
len(questions)` — a `ZeroDivisionError` when the question list is empty —
and, while the quiz is in progress, the option display reads
`option_items[0]` through `option_items[3]` in order — an `IndexError` as
soon as the current record has fewer than four options.  The result is the
progress fraction and the displayed option lines (empty on the end screen);
`none` models an uncaught exception. -/
def renderQuiz (questions : List QuestionItem) (s : QuizState) :
    Option (ℚ × List String) :=
  let total := questions.length
  if total = 0 then none
  else
    let progress : ℚ := (s.attempted_questions.card : ℚ) / (total : ℚ)
    if s.quiz_completed = false ∧ s.current_question_idx < total then
      match questions[s.current_question_idx]? with
      | none => none
      | some current_question =>
        let option_items := current_question.options.map Prod.fst
        match option_items[0]? with
        | none => none
        | some oa =>
          match option_items[1]? with
          | none => none
          | some ob =>
            match option_items[2]? with
            | none => none
            | some oc =>
              match option_items[3]? with
              | none => none
              | some od =>
                some (progress,
                  ["A: " ++ oa, "B: " ++ ob, "C: " ++ oc, "D: " ++ od])
    else some (progress, [])

/-- What a page's module-level code presents on a script run. -/
inductive PageView where
  | offerGeneration
  | showCached
  | promptForTopics
  | runQuiz
deriving DecidableEq, Repr

/-- Module-level logic of `src/pages/Notes.py` lines 46-63: generation is
guarded by `st.session_state.user_input != ""` (Python `None`, modelled as
`none`, compares unequal to the empty string); behind the guard a
"Generate Notes" button offering a chain invocation is shown when no notes
are cached, otherwise the cached notes are displayed; only an empty-string
topic gets the please-enter-topics prompt. -/
def notes_page (user_input : Option String) (notes : Option String) :
    PageView :=
  if user_input ≠ some "" then
    match notes with
    | none => PageView.offerGeneration
    | some _ => PageView.showCached
  else PageView.promptForTopics

/-- Module-level logic of `src/pages/QnA.py` lines 154-197: behind the same
`user_input != ""` guard the page shows the "Generate Question Answers"
button (after replaying any logged messages); only an empty-string topic
gets the prompt. -/
def qna_page (user_input : Option String) : PageView :=
  if user_input ≠ some "" then PageView.offerGeneration
  else PageView.promptForTopics

/-- Module-level logic of `src/pages/Quiz.py` lines 165-177: there is no
guard on `user_input` at all — when no quiz is cached the page shows the
"Generate Quiz" button, whose click invokes `quiz_chain` on whatever
`user_input` holds, and otherwise it runs `quiz()`. -/
def quiz_page_entry (user_input : Option String)
    (quiz_questions : Option (List QuestionItem)) : PageView :=
  match quiz_questions with
  | none => PageView.offerGeneration
  | some _ => PageView.runQuiz

/-- The session-state keys and defaults installed by `src/App.py` lines
48-78 on the first run; Python `None` is `none`. -/
structure SessionState where
  status : String
  user_input : Option String
  quiz_questions : Option (List QuestionItem)
  current_question_idx : Nat
  score : Nat
  attempted_questions : Finset Nat
  quiz_completed : Bool
  total_questions : Nat
  groq_api_key : Option String
  messages : List Message
  notes : Option String
  first_time : Bool

/-- Initial session state per `src/App.py`: in particular `user_input` is
initialised to `None`, not to the empty string. -/
def initSession : SessionState where
  status := "Offline"
  user_input := none
  quiz_questions := none
  current_question_idx := 0
  score := 0
  attempted_questions := ∅
  quiz_completed := false
  total_questions := 1
  groq_api_key := none
  messages := []
  notes := none
  first_time := true

/-- Outcome of `requests.get("http://localhost:11434", timeout=2)`: either
a response carrying a status code, or a raised
`requests.exceptions.RequestException` (unreachable host, timeout, ...). -/
inductive GetOutcome where
  | response (status_code : Nat)
  | requestException
deriving DecidableEq, Repr

/-- `is_ollama_running` (`src/App.py` lines 16-26): `True` exactly when the
GET returned status code 200; a `RequestException` is caught and yields
`False` instead of propagating. -/
def is_ollama_running : GetOutcome → Bool
  | GetOutcome.response status_code => status_code == 200
  | GetOutcome.requestException => false

/-- Outcome of `subprocess.Popen(["ollama", "serve"], ...)`: the process
either launches or raises an exception whose string form is `e`. -/
inductive LaunchOutcome where
  | launched
  | failed (e : String)
deriving DecidableEq, Repr

/-- `start_ollama` (`src/App.py` lines 30-45): on a successful launch it
sleeps 3 seconds, sets `st.session_state.status` to "Online" and returns
`None`; any exception is caught and turned into the string
`"Failed to start Ollama:" + str(e)`, leaving the session status as it
was.  The result records the session status afterwards, the seconds slept,
and the returned value. -/
def start_ollama (launch : LaunchOutcome) (status : String) :
    String × Nat × Option String :=
  match launch with
  | LaunchOutcome.launched => ("Online", 3, none)
  | LaunchOutcome.failed e =>
    (status, 0, some ("Failed to start Ollama:" ++ e))

/-- Module-level bootstrap of `src/App.py` lines 48-54: when the liveness
check fails, `start_ollama` runs and the script simply continues with
whatever status resulted — a launch failure is not escalated and does not
block the rest of the application. -/
def bootstrap (get : GetOutcome) (launch : LaunchOutcome)
    (status : String) : String :=
  if is_ollama_running get then status
  else (start_ollama launch status).1

end Brainbrew

namespace Brainbrew

lemma lookup_isSome_of_mem_keys :
    ∀ (l : List (String × Bool)) (a : String), a ∈ l.map Prod.fst →
      (l.lookup a).isSome
  | [], a, h => by simp at h
  | (k, v) :: t, a, h => by
    by_cases hak : a = k
    · simp [List.lookup, hak]
    · have ht : a ∈ t.map Prod.fst := by
        rcases List.mem_map.mp h with ⟨p, hp, he⟩
        rcases List.mem_cons.mp hp with rfl | hp'
        · exact absurd he.symm (by simpa using hak)
        · exact List.mem_map.mpr ⟨p, hp', he⟩
      have hrec := lookup_isSome_of_mem_keys t a ht
      have hbeq : (a == k) = false := by simpa using hak
      rw [List.lookup, hbeq]
      exact hrec

lemma submitAnswer_some (questions : List QuestionItem) (choice : String)
    (s s' : QuizState) (h : submitAnswer questions choice s = some s') :
    s'.current_question_idx = s.current_question_idx + 1 ∧
    s'.attempted_questions =
      insert s.current_question_idx s.attempted_questions ∧
    s.score ≤ s'.score ∧ s'.score ≤ s.score + 1 ∧
    s'.quiz_completed = s.quiz_completed := by
  unfold submitAnswer at h
  split at h
  · exact absurd h (by simp)
  · dsimp only at h
    split at h
    · exact absurd h (by simp)
    · split at h
      · exact absurd h (by simp)
      · rename_i correct _
        cases h
        refine ⟨rfl, rfl, ?_, ?_, rfl⟩ <;> cases correct <;> simp

lemma settle_preserves (questions : List QuestionItem) (s : QuizState) :
    (settle questions s).current_question_idx = s.current_question_idx ∧
    (settle questions s).attempted_questions = s.attempted_questions ∧
    (settle questions s).score = s.score := by
  unfold settle
  split <;> exact ⟨rfl, rfl, rfl⟩

lemma submitAnswer_total (questions : List QuestionItem) (choice : String)
    (s : QuizState) (q : QuestionItem)
    (hq : questions[s.current_question_idx]? = some q)
    (hopts : 4 ≤ q.options.length)
    (hch : choice = "A" ∨ choice = "B" ∨ choice = "C" ∨ choice = "D") :
    (submitAnswer questions choice s).isSome := by
  have hlen : 4 ≤ (q.options.map Prod.fst).length := by simpa using hopts
  have hans : ∃ label, answerOf (q.options.map Prod.fst) choice = some label ∧
      label ∈ q.options.map Prod.fst := by
    rcases hch with rfl | rfl | rfl | rfl
    · have h0 : 0 < (q.options.map Prod.fst).length := by omega
      exact ⟨_, by simp [answerOf, List.getElem?_eq_getElem h0],
        List.getElem_mem h0⟩
    · have h1 : 1 < (q.options.map Prod.fst).length := by omega
      exact ⟨_, by simp [answerOf, List.getElem?_eq_getElem h1],
        List.getElem_mem h1⟩
    · have h2 : 2 < (q.options.map Prod.fst).length := by omega
      exact ⟨_, by simp [answerOf, List.getElem?_eq_getElem h2],
        List.getElem_mem h2⟩
    · have h3 : 3 < (q.options.map Prod.fst).length := by omega
      exact ⟨_, by simp [answerOf, List.getElem?_eq_getElem h3],
        List.getElem_mem h3⟩
  obtain ⟨label, hansEq, hmem⟩ := hans
  obtain ⟨b, hb⟩ :=
    Option.isSome_iff_exists.mp (lookup_isSome_of_mem_keys q.options label hmem)
  unfold submitAnswer
  rw [hq]
  dsimp only
  rw [hansEq]
  dsimp only
  rw [hb]
  simp

lemma runStep_view (questions : List QuestionItem) (s : QuizState) :
    runStep questions Event.view s = some (settle questions s) := by
  unfold runStep settle
  by_cases hc : s.quiz_completed <;>
    by_cases hlt : s.current_question_idx < questions.length <;>
      simp [hc, hlt]

lemma quiz_completed_mono (questions : List QuestionItem) (ev : Event)
    (t t' : QuizState) (h : runStep questions ev t = some t')
    (hc : t.quiz_completed = true) : t'.quiz_completed = true := by
  unfold runStep at h
  rw [hc] at h
  simp at h
  rw [← h]
  exact hc

lemma runQuizSession_completes (questions : List QuestionItem)
    (hopts : ∀ q ∈ questions, 4 ≤ q.options.length) :
    ∀ (chs : List String) (s : QuizState),
      (∀ c ∈ chs, c = "A" ∨ c = "B" ∨ c = "C" ∨ c = "D") →
      s.quiz_completed = false →
      s.current_question_idx + chs.length = questions.length →
      ∃ s', runQuizSession questions chs s = some s' ∧
        s'.current_question_idx = questions.length ∧
        (chs ≠ [] → s'.quiz_completed = true) ∧ (chs = [] → s' = s)
  | [], s, _, hnc, hidx => by
    refine ⟨s, rfl, by simpa using hidx, by simp, fun _ => rfl⟩
  | c :: rest, s, hvalid, hnc, hidx => by
    have hlt : s.current_question_idx < questions.length := by
      simp at hidx; omega
    obtain ⟨q, hq⟩ : ∃ q, questions[s.current_question_idx]? = some q :=
      ⟨_, List.getElem?_eq_getElem hlt⟩
    have hqopts : 4 ≤ q.options.length := hopts q (List.getElem?_mem hq)
    have hcval : c = "A" ∨ c = "B" ∨ c = "C" ∨ c = "D" :=
      hvalid c (List.mem_cons_self c rest)
    obtain ⟨s1, hs1⟩ := Option.isSome_iff_exists.mp
      (submitAnswer_total questions c s q hq hqopts hcval)
    obtain ⟨hidx1, _, _, _, hcomp1⟩ :=
      submitAnswer_some questions c s s1 hs1
    have hnc1 : s1.quiz_completed = false := by rw [hcomp1]; exact hnc
    have hstep : runStep questions (Event.press (some c)) s = some s1 := by
      simpa [runStep, hnc, hlt] using hs1
    have hsv : submitAndSettle questions c s = some (settle questions s1) := by
      unfold submitAndSettle
      rw [hstep]
      simpa using runStep_view questions s1
    have hrun : runQuizSession questions (c :: rest) s =
        runQuizSession questions rest (settle questions s1) := by
      show (submitAndSettle questions c s).bind (runQuizSession questions rest) = _
      rw [hsv]
      rfl
    rcases Decidable.eq_or_ne rest [] with rfl | hne
    · have hlast : s.current_question_idx + 1 = questions.length := by
        simp at hidx; omega
      have hset : settle questions s1 = { s1 with quiz_completed := true } := by
        unfold settle
        have hge : questions.length ≤ s1.current_question_idx := by omega
        simp [hnc1, hge]
      refine ⟨settle questions s1, by rw [hrun]; rfl, ?_, fun _ => ?_, by simp⟩
      · rw [hset]; simpa using by omega
      · rw [hset]
    · have hlt1 : s1.current_question_idx < questions.length := by
        have : rest.length ≠ 0 := fun h0 => hne (List.eq_nil_of_length_eq_zero h0)
        simp at hidx; omega
      have hset : settle questions s1 = s1 := by
        unfold settle
        simp [Nat.not_le_of_lt hlt1]
      have hvalid1 : ∀ ch ∈ rest, ch = "A" ∨ ch = "B" ∨ ch = "C" ∨ ch = "D" :=
        fun ch hm => hvalid ch (List.mem_cons_of_mem c hm)
      have hidx2 : s1.current_question_idx + rest.length = questions.length := by
        simp at hidx; omega
      obtain ⟨s', hrun', hidx', hcomp', _⟩ :=
        runQuizSession_completes questions hopts rest s1 hvalid1 hnc1 hidx2
      refine ⟨s', ?_, hidx', fun _ => hcomp' hne, by simp⟩
      rw [hrun, hset]
      exact hrun'

lemma quizInv_init (questions : List QuestionItem) :
    QuizInv questions initQuizState := by
  refine ⟨?_, ?_, ?_⟩ <;> simp [initQuizState, QuizInv]

lemma quizInv_step (questions : List QuestionItem) (ev : Event)
    (s s' : QuizState) (hs : QuizInv questions s)
    (h : runStep questions ev s = some s') : QuizInv questions s' := by
  obtain ⟨h1, h2, h3⟩ := hs
  unfold runStep at h
  split at h
  · cases h; exact ⟨h1, h2, h3⟩
  · split at h
    · rename_i hlt
      match ev with
      | .press (some choice) =>
        obtain ⟨hidx, hatt, hs1, hs2, _⟩ :=
          submitAnswer_some questions choice s s' h
        have hnotmem : s.current_question_idx ∉ s.attempted_questions :=
          fun hmem => lt_irrefl _ (h1 _ hmem)
        refine ⟨?_, ?_, ?_⟩
        · intro j hj
          rw [hatt] at hj
          rcases Finset.mem_insert.mp hj with rfl | hj
          · omega
          · have := h1 j hj; omega
        · rw [hatt, Finset.card_insert_of_not_mem hnotmem]
          omega
        · omega
      | .press none =>
        cases h; exact ⟨h1, h2, h3⟩
      | .view =>
        cases h
        obtain ⟨e1, e2, e3⟩ := settle_preserves questions s
        unfold QuizInv
        rw [e1, e2, e3]
        exact ⟨h1, h2, h3⟩
    · cases h
      obtain ⟨e1, e2, e3⟩ := settle_preserves questions s
      unfold QuizInv
      rw [e1, e2, e3]
      exact ⟨h1, h2, h3⟩

lemma runStep_idx_mono (questions : List QuestionItem) (ev : Event)
    (s s' : QuizState) (h : runStep questions ev s = some s') :
    s.current_question_idx ≤ s'.current_question_idx := by
  unfold runStep at h
  split at h
  · cases h; exact le_refl _
  · split at h
    · match ev with
      | .press (some choice) =>
        obtain ⟨hidx, _⟩ := submitAnswer_some questions choice s s' h
        omega
      | .press none => cases h; exact le_refl _
      | .view =>
        cases h
        exact le_of_eq (settle_preserves questions s).1.symm
    · cases h
      exact le_of_eq (settle_preserves questions s).1.symm

lemma quizInv_trace (questions : List QuestionItem) :
    ∀ (evs : List Event) (s s' : QuizState), QuizInv questions s →
      runTrace questions evs s = some s' → QuizInv questions s'
  | [], s, s', hs, h => by cases h; exact hs
  | ev :: evs, s, s', hs, h => by
    rcases Option.bind_eq_some.mp h with ⟨t, ht, htrace⟩
    exact quizInv_trace questions evs t s' (quizInv_step questions ev s t hs ht) htrace

lemma card_le_of_quizInv (questions : List QuestionItem) (s : QuizState)
    (hs : QuizInv questions s) :
    s.attempted_questions.card ≤ questions.length := by
  obtain ⟨h1, _, h3⟩ := hs
  have hsub : s.attempted_questions ⊆ Finset.range questions.length := by
    intro j hj
    exact Finset.mem_range.mpr (lt_of_lt_of_le (h1 j hj) h3)
  simpa using Finset.card_le_card hsub

/-- C1: an in-progress "Next Question" submission with a chosen option whose
label resolves (via `answerOf`) and whose correctness the option dict
records as `b` bumps the score exactly when `b` is true, marks the current
index attempted, and advances the index by one; a submission without a
choice and a plain view run leave score, attempted set and index
unchanged. -/
theorem quiz_submission_step (questions : List QuestionItem)
    (choice label : String) (q : QuestionItem) (b : Bool) (s : QuizState)
    (hnc : s.quiz_completed = false)
    (hlt : s.current_question_idx < questions.length)
    (hq : questions[s.current_question_idx]? = some q)
    (hans : answerOf (q.options.map Prod.fst) choice = some label)
    (hb : q.options.lookup label = some b) :
    runStep questions (Event.press (some choice)) s =
      some { s with
        score := if b then s.score + 1 else s.score
        attempted_questions :=
          insert s.current_question_idx s.attempted_questions
        current_question_idx := s.current_question_idx + 1 } ∧
    runStep questions (Event.press none) s = some s ∧
    runStep questions Event.view s = some s := by
  have hsettle : settle questions s = s := by
    unfold settle
    simp [hnc, Nat.not_le_of_lt hlt]
  refine ⟨?_, ?_, ?_⟩
  · simp [runStep, hnc, hlt, submitAnswer, hq, hans, hb]
  · simp [runStep, hnc, hlt]
  · simp [runStep, hnc, hlt, hsettle]

/-- Witness for C1 on a concrete one-question quiz with a correct "A"
choice. -/
theorem quiz_submission_step_witness :
    runStep sampleQuestions (Event.press (some "A")) initQuizState =
      some { current_question_idx := 1, score := 1,
             attempted_questions := {0}, quiz_completed := false } := by
  have h := quiz_submission_step sampleQuestions
    "A" "x" ⟨"q", [("x", true), ("y", false), ("z", false), ("w", false)]⟩
    true initQuizState rfl (by decide) rfl rfl rfl
  simpa [initQuizState, sampleQuestions] using h.1

/-- C2: from the initial state, any successful sequence of script runs
yields a state with `score ≤ |attempted_questions| ≤ total_questions`, and
no single run ever decreases `current_question_idx`. -/
theorem quiz_score_invariant (questions : List QuestionItem)
    (evs : List Event) (s' : QuizState)
    (h : runTrace questions evs initQuizState = some s') :
    (s'.score ≤ s'.attempted_questions.card ∧
      s'.attempted_questions.card ≤ questions.length) ∧
    ∀ (ev : Event) (t t' : QuizState), runStep questions ev t = some t' →
      t.current_question_idx ≤ t'.current_question_idx := by
  have hinv : QuizInv questions s' :=
    quizInv_trace questions evs initQuizState s' (quizInv_init questions) h
  exact ⟨⟨hinv.2.1, card_le_of_quizInv questions s' hinv⟩,
    fun ev t t' => runStep_idx_mono questions ev t t'⟩

/-- Witness for C2: a single correct submission on the sample quiz. -/
theorem quiz_score_invariant_witness :
    ((1 : Nat) ≤ ({0} : Finset Nat).card ∧
      ({0} : Finset Nat).card ≤ sampleQuestions.length) ∧
    ∀ (ev : Event) (t t' : QuizState),
      runStep sampleQuestions ev t = some t' →
      t.current_question_idx ≤ t'.current_question_idx :=
  quiz_score_invariant sampleQuestions [Event.press (some "A")]
    ⟨1, 1, {0}, false⟩ (by decide)

/-- C5 counterexample: on the sample quiz in the initial in-progress state,
a "Next Question" press with a falsy choice leaves the state exactly as it
was — the index is not advanced and nothing is marked attempted — contrary
to the claim that such a submission still advances and marks the current
index attempted. -/
theorem quiz_missing_selection_counterexample :
    runStep sampleQuestions (Event.press none) initQuizState =
      some initQuizState ∧
    initQuizState.current_question_idx = 0 ∧
    initQuizState.attempted_questions = ∅ ∧
    initQuizState.quiz_completed = false ∧
    0 < sampleQuestions.length := by
  refine ⟨by decide, rfl, rfl, rfl, by decide⟩

/-- C5 (amended): in an in-progress quiz, a submission without a selection
is a no-op: the whole update block is skipped, so the score is unchanged,
the current index is not marked attempted, and the index does not
advance. -/
theorem quiz_missing_selection_noop (questions : List QuestionItem)
    (s : QuizState) (hnc : s.quiz_completed = false)
    (hlt : s.current_question_idx < questions.length) :
    runStep questions (Event.press none) s = some s := by
  simp [runStep, hnc, hlt]

/-- Witness for the amended C5 on the sample quiz. -/
theorem quiz_missing_selection_noop_witness :
    runStep sampleQuestions (Event.press none) initQuizState =
      some initQuizState :=
  quiz_missing_selection_noop sampleQuestions initQuizState rfl (by decide)

/-- C3: on a quiz of `N ≥ 1` questions (each with at least four options),
a session of exactly `N` valid "Next Question" submissions from the initial
state succeeds and ends with the completion flag set; the completion check
sets the flag exactly when the index has reached or passed the total; and
no script run ever clears a set flag. -/
theorem quiz_completion (questions : List QuestionItem) (chs : List String)
    (hN : 1 ≤ questions.length)
    (hopts : ∀ q ∈ questions, 4 ≤ q.options.length)
    (hvalid : ∀ c ∈ chs, c = "A" ∨ c = "B" ∨ c = "C" ∨ c = "D")
    (hlen : chs.length = questions.length) :
    (∃ s', runQuizSession questions chs initQuizState = some s' ∧
        s'.quiz_completed = true) ∧
    (∀ s : QuizState, (settle questions s).quiz_completed =
        (s.quiz_completed ||
          decide (questions.length ≤ s.current_question_idx))) ∧
    (∀ (ev : Event) (t t' : QuizState), runStep questions ev t = some t' →
        t.quiz_completed = true → t'.quiz_completed = true) := by
  refine ⟨?_, ?_, fun ev t t' => quiz_completed_mono questions ev t t'⟩
  · have hne : chs ≠ [] := by
      intro h0
      rw [h0] at hlen
      simp at hlen
      omega
    obtain ⟨s', hrun, _, hcomp, _⟩ :=
      runQuizSession_completes questions hopts chs initQuizState hvalid rfl
        (by simpa [initQuizState] using hlen)
    exact ⟨s', hrun, hcomp hne⟩
  · intro s
    unfold settle
    by_cases hc : s.quiz_completed <;>
      by_cases hle : questions.length ≤ s.current_question_idx <;>
        simp [hc, hle]

/-- Witness for C3: the one-question sample quiz completed by a single
"A" submission. -/
theorem quiz_completion_witness :
    (∃ s', runQuizSession sampleQuestions ["A"] initQuizState = some s' ∧
        s'.quiz_completed = true) ∧
    (∀ s : QuizState, (settle sampleQuestions s).quiz_completed =
        (s.quiz_completed ||
          decide (sampleQuestions.length ≤ s.current_question_idx))) ∧
    (∀ (ev : Event) (t t' : QuizState), runStep sampleQuestions ev t = some t' →
        t.quiz_completed = true → t'.quiz_completed = true) :=
  quiz_completion sampleQuestions ["A"] (by decide) (by decide) (by decide)
    (by decide)

lemma generate_qna_foldl (answer_chain : String → String) :
    ∀ (l : List String) (messages : List Message),
      l.foldl
        (fun msgs ques =>
          (msgs ++ [⟨"assistant", ques⟩]) ++ [⟨"user", answer_chain ques⟩])
        messages = messages ++ qnaPairs answer_chain l
  | [], messages => by simp [qnaPairs]
  | ques :: rest, messages => by
    rw [List.foldl_cons, generate_qna_foldl answer_chain rest]
    simp [qnaPairs]

lemma qnaPairs_length (answer_chain : String → String) :
    ∀ l : List String, (qnaPairs answer_chain l).length = 2 * l.length
  | [] => by simp [qnaPairs]
  | ques :: rest => by
    simp [qnaPairs, qnaPairs_length answer_chain rest]
    ring

/-- C4: `generate_qna` discards exactly the first generated question and
appends, for each remaining question in generation order, the question
immediately followed by the answer the answer chain returns for it —
`2 * (N - 1)` new messages for `N` generated questions, leaving the
existing log untouched as an unchanged front segment. -/
theorem generate_qna_spec (cached : List String)
    (answer_chain : String → String) (messages : List Message) :
    generate_qna cached answer_chain messages =
      messages ++ qnaPairs answer_chain (cached.drop 1) ∧
    (generate_qna cached answer_chain messages).length =
      messages.length + 2 * (cached.length - 1) := by
  have h := generate_qna_foldl answer_chain (cached.drop 1) messages
  refine ⟨h, ?_⟩
  rw [show generate_qna cached answer_chain messages =
    messages ++ qnaPairs answer_chain (cached.drop 1) from h]
  simp [qnaPairs_length]

/-- C9: the quiz rendering is partial exactly as claimed — an empty
question list makes the progress computation divide by zero; an in-progress
state whose current record has fewer than four options makes the option
display index out of bounds; and when the list is non-empty and every
record has at least four options the rendering is total. -/
theorem renderQuiz_partiality (questions : List QuestionItem)
    (s : QuizState) :
    (questions = [] → renderQuiz questions s = none) ∧
    (∀ q : QuestionItem, s.quiz_completed = false →
      questions[s.current_question_idx]? = some q →
      q.options.length < 4 → renderQuiz questions s = none) ∧
    (questions ≠ [] → (∀ q ∈ questions, 4 ≤ q.options.length) →
      (renderQuiz questions s).isSome) := by
  refine ⟨?_, ?_, ?_⟩
  · rintro rfl
    rfl
  · intro q hnc hq h4lt
    have hlt : s.current_question_idx < questions.length := by
      by_contra hge
      rw [List.getElem?_eq_none (Nat.le_of_not_lt hge)] at hq
      cases hq
    have hlen0 : ¬ questions.length = 0 := by omega
    have h3n : (q.options.map Prod.fst)[3]? = none := by
      refine List.getElem?_eq_none ?_
      simp only [List.length_map]
      omega
    unfold renderQuiz
    dsimp only
    rw [if_neg hlen0, if_pos ⟨hnc, hlt⟩, hq]
    dsimp only
    rcases e0 : (q.options.map Prod.fst)[0]? with _ | oa
    · rfl
    · rcases e1 : (q.options.map Prod.fst)[1]? with _ | ob
      · rfl
      · rcases e2 : (q.options.map Prod.fst)[2]? with _ | oc
        · rfl
        · rw [h3n]
  · intro hne hall
    have hlen0 : ¬ questions.length = 0 :=
      fun h0 => hne (List.length_eq_zero.mp h0)
    unfold renderQuiz
    dsimp only
    rw [if_neg hlen0]
    by_cases hip : s.quiz_completed = false ∧
        s.current_question_idx < questions.length
    · rw [if_pos hip]
      obtain ⟨q, hq⟩ : ∃ q, questions[s.current_question_idx]? = some q :=
        ⟨_, List.getElem?_eq_getElem hip.2⟩
      rw [hq]
      dsimp only
      have h4 : 4 ≤ (q.options.map Prod.fst).length := by
        simpa using hall q (List.getElem?_mem hq)
      rw [List.getElem?_eq_getElem (show 0 < _ by omega),
        List.getElem?_eq_getElem (show 1 < _ by omega),
        List.getElem?_eq_getElem (show 2 < _ by omega),
        List.getElem?_eq_getElem (show 3 < _ by omega)]
      rfl
    · rw [if_neg hip]
      rfl

/-- Witness for C9: the empty list fails to render, the sample quiz
renders. -/
theorem renderQuiz_partiality_witness :
    renderQuiz ([] : List QuestionItem) initQuizState = none ∧
    (renderQuiz sampleQuestions initQuizState).isSome :=
  ⟨(renderQuiz_partiality [] initQuizState).1 rfl,
   (renderQuiz_partiality sampleQuestions initQuizState).2.2 (by decide)
     (by decide)⟩

/-- C6 counterexample: with the empty topic string as session input and no
quiz generated yet, the Quiz page does not display the please-enter-topics
prompt — it offers quiz generation (whose click invokes the chain on the
empty topic), because `src/pages/Quiz.py` has no module-level guard on
`user_input`. -/
theorem empty_topic_quiz_page_counterexample :
    quiz_page_entry (some "") none = PageView.offerGeneration ∧
    quiz_page_entry (some "") none ≠ PageView.promptForTopics :=
  ⟨rfl, by decide⟩

/-- C6 (amended): on the empty topic string the Notes and Q&A pages
trigger no generation and display the please-enter-topics prompt, but the
Quiz page, which lacks any topic guard, still offers quiz generation when
no quiz is cached. -/
theorem empty_topic_guards (notes : Option String) :
    notes_page (some "") notes = PageView.promptForTopics ∧
    qna_page (some "") = PageView.promptForTopics ∧
    quiz_page_entry (some "") none = PageView.offerGeneration := by
  refine ⟨?_, ?_, rfl⟩ <;> simp [notes_page, qna_page]

/-- C7: the liveness check returns `True` exactly when the GET to the
fixed local address yielded HTTP status 200, and every request exception
yields `False` instead of propagating. -/
theorem is_ollama_running_spec (o : GetOutcome) :
    (is_ollama_running o = true ↔ o = GetOutcome.response 200) ∧
    is_ollama_running GetOutcome.requestException = false := by
  refine ⟨?_, rfl⟩
  cases o with
  | response status_code => simp [is_ollama_running]
  | requestException => simp [is_ollama_running]

/-- C8: `start_ollama` never escalates — a failed launch returns the
string `"Failed to start Ollama:" + e` (so the return value carries the
descriptive "Failed to start Ollama:" text) and leaves the session status
untouched, a successful launch waits 3 seconds, marks the status "Online"
and returns `None`, and in either case the module-level bootstrap proceeds:
when the liveness check fails and the launch fails too, the app simply
continues with its previous status. -/
theorem start_ollama_spec (status : String) :
    (∀ e, start_ollama (LaunchOutcome.failed e) status =
      (status, 0, some ("Failed to start Ollama:" ++ e))) ∧
    (∀ e, ∃ tail, (start_ollama (LaunchOutcome.failed e) status).2.2 =
      some ("Failed to start Ollama:" ++ tail)) ∧
    start_ollama LaunchOutcome.launched status = ("Online", 3, none) ∧
    (∀ (g : GetOutcome) (e : String), is_ollama_running g = false →
      bootstrap g (LaunchOutcome.failed e) status = status) := by
  refine ⟨fun e => rfl, fun e => ⟨e, rfl⟩, rfl, ?_⟩
  intro g e hg
  simp [bootstrap, hg, start_ollama]

/-- Witness for C8: a concrete failed bootstrap on an offline session. -/
theorem start_ollama_spec_witness :
    start_ollama (LaunchOutcome.failed "boom") "Offline" =
      ("Offline", 0, some "Failed to start Ollama:boom") ∧
    bootstrap GetOutcome.requestException (LaunchOutcome.failed "boom")
      "Offline" = "Offline" :=
  ⟨(start_ollama_spec "Offline").1 "boom",
   (start_ollama_spec "Offline").2.2.2 GetOutcome.requestException "boom" rfl⟩

/-- C10: before any topic is submitted the session topic is `None` — not
the empty string — so the `user_input != ""` guards in `Notes.py` and
`QnA.py` pass, and in the initial session state both pages take the
generation branch instead of showing the please-enter-topics prompt. -/
theorem initial_state_generation_branch :
    initSession.user_input = none ∧
    initSession.user_input ≠ some "" ∧
    notes_page initSession.user_input initSession.notes =
      PageView.offerGeneration ∧
    qna_page initSession.user_input = PageView.offerGeneration :=
  ⟨rfl, by decide, rfl, rfl⟩

end Brainbrew
